import Mathlib

/-!
Shallow embedding of the perception pipeline of `src/src/servers/vision.py`
and the `get_screen` tool of `src/src/servers/server.py` (the repository's
current module tree; `src/mcp/desktop` is the superseded legacy variant).

Modelling conventions:
* A PIL image is an opaque handle (`RawImage := Nat`); the pipeline never
  inspects pixels, it only passes images to collaborators.
* Wall-clock time (`time.time()`) is a rational number of seconds supplied
  by the environment at each call.
* The process-global `_frame_cache._frame` slot is threaded explicitly as an
  `Option CachedFrame`; each operation returns the updated slot.
* The external collaborators (`pyautogui.screenshot`, `pytesseract
  .image_to_data`, mouse position) are fields of a `SysEnv` record; invoking
  the screen-grab collaborator is recorded in a `grabbed` flag so that
  "a fresh capture happened" is observable.
* A pytesseract `Output.DICT` table is parallel lists; a `conf` entry is
  either a numeric value (`ConfVal.num`, the case where Python's `float()`
  succeeds), a non-numeric string (`ConfVal.badStr`, where `float()` raises
  `ValueError`), or `None` (`ConfVal.noneVal`, where `float()` raises
  `TypeError`).  A Python function that may raise is embedded returning
  `Option`, `none` standing for an escaping exception.
* Python's stable `sorted(..., reverse=True)` is embedded as
  `List.mergeSort` with the reflexive total order `b.confidence ≤
  a.confidence`, which is the unique stable descending sort.
-/

namespace UbuntuCommander

/-- Opaque handle standing for a PIL image; the code never inspects pixels. -/
abbrev RawImage := Nat

/-- A `(x, y, width, height)` region tuple of ints. -/
structure Region where
  x : Int
  y : Int
  width : Int
  height : Int
deriving DecidableEq

/-- One `conf` entry of a pytesseract table, classified by how Python's
`float()` treats it. -/
inductive ConfVal where
  | num (q : Rat)
  | badStr
  | noneVal
deriving DecidableEq

/-- The raw pytesseract `Output.DICT` table: parallel lists keyed by
`text`, `conf`, `left`, `top`, `width`, `height`. -/
structure OCRTable where
  text : List String
  conf : List ConfVal
  left : List Int
  top : List Int
  width : List Int
  height : List Int
deriving DecidableEq

/-- The parallel lists all have the length of `text` (the code iterates
`range(len(data["text"]))` and indexes every list at each `i`). -/
def OCRTable.wf (t : OCRTable) : Prop :=
  t.conf.length = t.text.length ∧ t.left.length = t.text.length ∧
  t.top.length = t.text.length ∧ t.width.length = t.text.length ∧
  t.height.length = t.text.length

instance (t : OCRTable) : Decidable t.wf := by
  unfold OCRTable.wf; infer_instance

/-- `CachedFrame` dataclass: a cached screenshot with metadata. -/
structure CachedFrame where
  image : RawImage
  timestamp : Rat
  width : Int
  height : Int
  ocr_data : Option OCRTable
  grayscale : Option RawImage
deriving DecidableEq

/-- `CachedFrame.age_ms`: `(time.time() - self.timestamp) * 1000`. -/
def CachedFrame.age_ms (f : CachedFrame) (now : Rat) : Rat :=
  (now - f.timestamp) * 1000

/-- `CachedFrame.is_stale`: `self.age_ms() > max_age_ms` (default 500). -/
def CachedFrame.is_stale (f : CachedFrame) (now : Rat) (max_age_ms : Rat) : Bool :=
  decide (f.age_ms now > max_age_ms)

/-- The collaborators and ambient state a call runs against: the clock, the
screenshot engine (full-screen image and its reported size, and the
region-restricted image for any region), the mouse position, and the OCR
engine viewed as a function from the image it is run on to the raw table. -/
structure SysEnv where
  now : Rat
  fullImage : RawImage
  fullWidth : Int
  fullHeight : Int
  regionImage : Region → RawImage
  mouseX : Int
  mouseY : Int
  ocr : RawImage → OCRTable

/-- Result of one `FrameCache.capture` call: the returned frame, the cache
slot afterwards, and whether `pyautogui.screenshot` was invoked. -/
structure CaptureResult where
  frame : CachedFrame
  state : Option CachedFrame
  grabbed : Bool
deriving DecidableEq

namespace FrameCache

/-- The fresh-capture tail of `FrameCache.capture`: grab the image (region
or full screen), build a `CachedFrame` with `ocr_data = None`, and store it
only when the capture is full-screen. -/
def captureFresh (env : SysEnv) (st : Option CachedFrame)
    (region : Option Region) : CaptureResult :=
  match region with
  | some r =>
      { frame := { image := env.regionImage r, timestamp := env.now,
                   width := r.width, height := r.height,
                   ocr_data := none, grayscale := none },
        state := st, grabbed := true }
  | none =>
      let frame : CachedFrame :=
        { image := env.fullImage, timestamp := env.now,
          width := env.fullWidth, height := env.fullHeight,
          ocr_data := none, grayscale := none }
      { frame := frame, state := some frame, grabbed := true }

/-- `FrameCache.capture(region, force)`: return the stored frame when
`not force and self._frame and not self._frame.is_stale() and region is
None`; otherwise capture fresh. -/
def capture (env : SysEnv) (st : Option CachedFrame)
    (region : Option Region) (force : Bool) : CaptureResult :=
  match st with
  | some f =>
      if !force && !(f.is_stale env.now 500) && region.isNone then
        { frame := f, state := st, grabbed := false }
      else
        captureFresh env st region
  | none => captureFresh env st region

/-- `FrameCache.get_cached(max_age_ms)`: the stored frame if present and not
stale at `max_age_ms`, else `None`.  Never captures. -/
def get_cached (st : Option CachedFrame) (now : Rat) (max_age_ms : Rat) :
    Option CachedFrame :=
  match st with
  | some f => if !(f.is_stale now max_age_ms) then some f else none
  | none => none

/-- `FrameCache.invalidate()`: clear the slot. -/
def invalidate (_st : Option CachedFrame) : Option CachedFrame := none

/-- `FrameCache.cache_ocr_data(ocr_data)`: `if self._frame:
self._frame.ocr_data = ocr_data` — attach to whatever frame is currently
stored; no-op when the slot is empty. -/
def cache_ocr_data (d : OCRTable) (st : Option CachedFrame) :
    Option CachedFrame :=
  match st with
  | some f => some { f with ocr_data := some d }
  | none => none

/-- `FrameCache.get_cached_ocr()`: the payload if a frame is stored, is not
stale at the default 500 ms, and has a payload attached.  (The stored
pytesseract dict always carries its fixed keys, so its Python truthiness is
`isSome` here.) -/
def get_cached_ocr (st : Option CachedFrame) (now : Rat) : Option OCRTable :=
  match st with
  | some f =>
      if !(f.is_stale now 500) && f.ocr_data.isSome then f.ocr_data
      else none
  | none => none

end FrameCache

/-- `BoundingBox` dataclass: x, y and dimensions in screen pixels. -/
structure BoundingBox where
  x : Int
  y : Int
  width : Int
  height : Int
deriving DecidableEq

/-- `BoundingBox.center`: `(x + width // 2, y + height // 2)` with Python
floor division. -/
def BoundingBox.center (b : BoundingBox) : Int × Int :=
  (b.x + Int.fdiv b.width 2, b.y + Int.fdiv b.height 2)

/-- `ElementMatch` dataclass: a detected element with confidence and
optional recognized text. -/
structure ElementMatch where
  bbox : BoundingBox
  confidence : Rat
  text : Option String
deriving DecidableEq

/-- Python `str.lower()`, character-wise (the code only compares
ASCII-range OCR tokens), as the exploded character list. -/
def strLower (s : String) : List Char := s.data.map Char.toLower

/-- Whether `needle` is a leading segment of `hay`. -/
def charsLeading : List Char → List Char → Bool
  | [], _ => true
  | _ :: _, [] => false
  | a :: as, b :: bs => a == b && charsLeading as bs

/-- Python's `needle in hay` substring test, on exploded strings. -/
def charsContain (needle : List Char) : List Char → Bool
  | [] => needle.isEmpty
  | b :: bs => charsLeading needle (b :: bs) || charsContain needle bs

/-- `search_lower in word.lower()` as the code writes it; `search_lower`
is the already-lowered query. -/
def substrMatch (search_lower : List Char) (word : String) : Bool :=
  charsContain search_lower (strLower word)

/-- `float(conf) / 100.0` under `except (ValueError, TypeError): conf = 0.0`
(the handler of `_ocr_data_to_matches` and `find_text_in_ocr_cache`). -/
def confLoose : ConfVal → Rat
  | .num q => q / 100
  | .badStr => 0
  | .noneVal => 0

/-- `float(conf) / 100.0` under `except ValueError: conf = 0.0` only (the
handler of `find_text_on_screen`): a `None` raises `TypeError`, which
escapes, so the result is `none`. -/
def confStrict : ConfVal → Option Rat
  | .num q => some (q / 100)
  | .badStr => some 0
  | .noneVal => none

/-- The comparison realized by `key=lambda m: m.confidence, reverse=True`:
`a` may come before `b` exactly when `b.confidence ≤ a.confidence`. -/
def confDescLe (a b : ElementMatch) : Bool :=
  decide (b.confidence ≤ a.confidence)

/-- `sorted(matches, key=lambda m: m.confidence, reverse=True)`: Python's
sort is stable also with `reverse=True`, so this is the stable sort by the
reflexive total order "higher confidence first". -/
def sortByConfDesc (ms : List ElementMatch) : List ElementMatch :=
  ms.mergeSort confDescLe

/-- The loop body of `find_text_in_ocr_cache` over the remaining row
indices: skip falsy (empty) words, substring-test against the lowered
query, parse confidence leniently, keep rows at or above the floor. -/
def cachedRows (t : OCRTable) (search_lower : List Char) (mc : Rat) :
    List Nat → List ElementMatch
  | [] => []
  | i :: rest =>
      let word := t.text.getD i ""
      if word = "" then cachedRows t search_lower mc rest
      else if substrMatch search_lower word then
        let conf := confLoose (t.conf.getD i ConfVal.noneVal)
        if mc ≤ conf then
          { bbox := { x := t.left.getD i 0, y := t.top.getD i 0,
                      width := t.width.getD i 0, height := t.height.getD i 0 },
            confidence := conf, text := some word } :: cachedRows t search_lower mc rest
        else cachedRows t search_lower mc rest
      else cachedRows t search_lower mc rest

/-- `find_text_in_ocr_cache(text, min_confidence)` (default floor 0.35):
search the cached OCR payload, empty list when no usable cache, result
sorted by confidence descending. -/
def find_text_in_ocr_cache (st : Option CachedFrame) (now : Rat)
    (text : String) (min_confidence : Rat) : List ElementMatch :=
  match FrameCache.get_cached_ocr st now with
  | none => []
  | some cached =>
      sortByConfDesc
        (cachedRows cached (strLower text) min_confidence
          (List.range cached.text.length))

/-- `offset_x = region[0] if region else 0`. -/
def regionOffsetX : Option Region → Int
  | some r => r.x
  | none => 0

/-- `offset_y = region[1] if region else 0`. -/
def regionOffsetY : Option Region → Int
  | some r => r.y
  | none => 0

/-- The loop body of `find_text_on_screen` over the remaining row indices.
Identical to `cachedRows` except that only `ValueError` is caught when
parsing `conf`, so a `None` confidence aborts the whole call (`none`), and
bounding boxes are offset by the capture region's origin. -/
def strictRows (t : OCRTable) (search_lower : List Char) (offx offy : Int)
    (mc : Rat) : List Nat → Option (List ElementMatch)
  | [] => some []
  | i :: rest =>
      let word := t.text.getD i ""
      if word = "" then strictRows t search_lower offx offy mc rest
      else if substrMatch search_lower word then
        match confStrict (t.conf.getD i ConfVal.noneVal) with
        | none => none
        | some conf =>
            if mc ≤ conf then
              match strictRows t search_lower offx offy mc rest with
              | none => none
              | some ms =>
                  some ({ bbox := { x := offx + t.left.getD i 0,
                                    y := offy + t.top.getD i 0,
                                    width := t.width.getD i 0,
                                    height := t.height.getD i 0 },
                          confidence := conf, text := some word } :: ms)
            else strictRows t search_lower offx offy mc rest
      else strictRows t search_lower offx offy mc rest

/-- `find_text_on_screen(text, lang, region, min_confidence)` applied to the
table the OCR engine returns for the captured screenshot; `none` is an
escaping exception.  (The tesseract-unavailable failure mode is outside
these claims; the engine is taken as configured.) -/
def find_text_on_screen (t : OCRTable) (text : String)
    (region : Option Region) (min_confidence : Rat) :
    Option (List ElementMatch) :=
  match strictRows t (strLower text) (regionOffsetX region)
      (regionOffsetY region) min_confidence (List.range t.text.length) with
  | none => none
  | some ms => some (sortByConfDesc ms)

/-- `find_text_on_screen` as the process runs it: grab the screenshot
directly from `pyautogui` (never via `_frame_cache`), run OCR on it, and
convert; the cache slot is untouched by the body, so it is threaded through
unchanged. -/
def find_text_pipeline (env : SysEnv) (st : Option CachedFrame)
    (text : String) (region : Option Region) (min_confidence : Rat) :
    Option (List ElementMatch) × Option CachedFrame :=
  let screenshot :=
    match region with
    | some r => env.regionImage r
    | none => env.fullImage
  (find_text_on_screen (env.ocr screenshot) text region min_confidence, st)

/-- The bbox dict built by `_ocr_data_to_matches`. -/
structure BBoxDict where
  x : Int
  y : Int
  width : Int
  height : Int
  center_x : Int
  center_y : Int
deriving DecidableEq

/-- One entry of the `ocr_full_screen` result list. -/
structure OCRMatchDict where
  text : String
  confidence : Rat
  bbox : BBoxDict
deriving DecidableEq

/-- The dict `_ocr_data_to_matches` emits for row `i`. -/
def rowDict (t : OCRTable) (i : Nat) : OCRMatchDict :=
  let x := t.left.getD i 0
  let y := t.top.getD i 0
  let w := t.width.getD i 0
  let h := t.height.getD i 0
  { text := t.text.getD i "", confidence := confLoose (t.conf.getD i ConfVal.noneVal),
    bbox := { x := x, y := y, width := w, height := h,
              center_x := x + Int.fdiv w 2, center_y := y + Int.fdiv h 2 } }

/-- The loop of `_ocr_data_to_matches`: drop rows whose word is falsy or
whitespace-only (`not word or not word.strip()`), parse confidence
leniently, drop rows with `conf < min_confidence`. -/
def ocrRows (t : OCRTable) (mc : Rat) : List Nat → List OCRMatchDict
  | [] => []
  | i :: rest =>
      let word := t.text.getD i ""
      if word = "" || word.data.all Char.isWhitespace then ocrRows t mc rest
      else
        let conf := confLoose (t.conf.getD i ConfVal.noneVal)
        if conf < mc then ocrRows t mc rest
        else rowDict t i :: ocrRows t mc rest

/-- `_ocr_data_to_matches(data, min_confidence)` (default floor 0.0). -/
def ocr_data_to_matches (t : OCRTable) (min_confidence : Rat) :
    List OCRMatchDict :=
  ocrRows t min_confidence (List.range t.text.length)

/-- `ocr_full_screen(lang, use_cache, psm)`: reuse the cached payload when
`use_cache` and one is fresh; otherwise capture forced, run OCR on the
captured image, attach the raw table via `cache_ocr_data`, and convert with
the default 0.0 floor. -/
def ocr_full_screen (env : SysEnv) (st : Option CachedFrame)
    (use_cache : Bool) : List OCRMatchDict × Option CachedFrame :=
  match (if use_cache then FrameCache.get_cached_ocr st env.now else none) with
  | some cached => (ocr_data_to_matches cached 0, st)
  | none =>
      let r := FrameCache.capture env st none true
      let data := env.ocr r.frame.image
      let st2 := FrameCache.cache_ocr_data data r.state
      (ocr_data_to_matches data 0, st2)

/-- The uncached path of `ocr_full_screen` with a concurrent cache mutation
`interfere` interleaved between the capture (line 409) and the attachment
(line 421): capture and OCR run outside the cache lock, so another tool
call may replace or clear the slot in between; `interfere` is that interference
(`id` when there is none). -/
def ocr_full_screen_interleaved (env : SysEnv) (st : Option CachedFrame)
    (interfere : Option CachedFrame → Option CachedFrame) :
    List OCRMatchDict × Option CachedFrame :=
  let r := FrameCache.capture env st none true
  let s1 := interfere r.state
  let data := env.ocr r.frame.image
  let s2 := FrameCache.cache_ocr_data data s1
  (ocr_data_to_matches data 0, s2)

/-- One rectangle reported by `pyautogui.locateAllOnScreen`. -/
structure LocRect where
  left : Int
  top : Int
  width : Int
  height : Int
deriving DecidableEq

/-- `find_template_on_screen(template_path, confidence, grayscale)` applied
to the engine's answer: `none` stands for `ImageNotFoundException` (caught,
yielding `[]`); each located rect becomes a match whose `confidence` field
is the threshold parameter itself. -/
def find_template_on_screen (locations : Option (List LocRect))
    (confidence : Rat) : List ElementMatch :=
  match locations with
  | none => []
  | some locs =>
      locs.map fun loc =>
        { bbox := { x := loc.left, y := loc.top,
                    width := loc.width, height := loc.height },
          confidence := confidence, text := none }

/-- Result of the `get_screen` tool: the image handed back, the cache slot
afterwards, and whether a screenshot collaborator call happened. -/
structure ScreenResult where
  image : RawImage
  state : Option CachedFrame
  grabbed : Bool

/-- `capture_screenshot(quality, format, region, use_cache)` (encoding
elided; the image handle is returned as-is): `use_cache` with no region
goes through the cache unforced; a region goes straight to `pyautogui`
without touching the cache; otherwise a forced cache capture. -/
def capture_screenshot (env : SysEnv) (st : Option CachedFrame)
    (region : Option Region) (use_cache : Bool) : ScreenResult :=
  if use_cache && region.isNone then
    let r := FrameCache.capture env st none false
    { image := r.frame.image, state := r.state, grabbed := r.grabbed }
  else
    match region with
    | some reg => { image := env.regionImage reg, state := st, grabbed := true }
    | none =>
        let r := FrameCache.capture env st none true
        { image := r.frame.image, state := r.state, grabbed := r.grabbed }

/-- The metadata dict of `capture_with_metadata`. -/
structure ScreenMeta where
  image : RawImage
  width : Int
  height : Int
  timestamp : Rat
  mouse_x : Int
  mouse_y : Int
deriving DecidableEq

/-- `capture_with_metadata(quality, format, region)`: always
`_frame_cache.capture(region=region, force=True)`. -/
def capture_with_metadata (env : SysEnv) (st : Option CachedFrame)
    (region : Option Region) : ScreenMeta × Option CachedFrame × Bool :=
  let r := FrameCache.capture env st region true
  ({ image := r.frame.image, width := r.frame.width, height := r.frame.height,
     timestamp := r.frame.timestamp, mouse_x := env.mouseX, mouse_y := env.mouseY },
   r.state, r.grabbed)

/-- The `get_screen` tool (`server.py`): with a region it calls
`capture_screenshot(region=...)` (default `use_cache=False`); without one
it calls `capture_with_metadata`, which forces a capture. -/
def get_screen (env : SysEnv) (st : Option CachedFrame)
    (region : Option Region) : ScreenResult :=
  match region with
  | some r =>
      capture_screenshot env st (some r) false
  | none =>
      let (meta, st2, grabbed) := capture_with_metadata env st none
      { image := meta.image, state := st2, grabbed := grabbed }

/-! Concrete example values used by counterexamples and witnesses. -/

/-- A full-screen frame captured at time 0 with no OCR payload. -/
def frA : CachedFrame :=
  { image := 1, timestamp := 0, width := 800, height := 600,
    ocr_data := none, grayscale := none }

/-- A one-token OCR table with a well-behaved numeric confidence. -/
def tblB : OCRTable :=
  { text := ["ok"], conf := [ConfVal.num 90],
    left := [5], top := [6], width := [7], height := [8] }

/-- A frame captured at time 0 that carries an OCR payload. -/
def frB : CachedFrame := { frA with image := 2, ocr_data := some tblB }

/-- A distinct frame captured at time 1, standing for a concurrent
replacement of the cache slot. -/
def frG : CachedFrame :=
  { image := 3, timestamp := 1, width := 800, height := 600,
    ocr_data := none, grayscale := none }

/-- A concrete environment at time 0. -/
def env0 : SysEnv :=
  { now := 0, fullImage := 10, fullWidth := 800, fullHeight := 600,
    regionImage := fun _ => 11, mouseX := 3, mouseY := 4,
    ocr := fun _ => tblB }

/-- The same environment half a second later: a frame captured at time 0 is
then exactly 500 ms old. -/
def envHalf : SysEnv := { env0 with now := 1/2 }

/-- The same environment a tenth of a second later: a frame captured at
time 0 is then 100 ms old, comfortably inside the staleness window. -/
def envTenth : SysEnv := { env0 with now := 1/10 }

/-- A table with one non-blank token whose engine confidence is `-1` (the
value tesseract emits for structural rows). -/
def tNeg : OCRTable :=
  { text := ["x"], conf := [ConfVal.num (-1)],
    left := [0], top := [0], width := [0], height := [0] }

/-- The same table with a non-numeric string confidence instead. -/
def tBad : OCRTable := { tNeg with conf := [ConfVal.badStr] }

/-- A table with one token whose confidence entry is `None`. -/
def tAb : OCRTable :=
  { text := ["ab"], conf := [ConfVal.noneVal],
    left := [1], top := [2], width := [3], height := [4] }

/-- The spec's scenario-A table: `Submit` at engine confidence 92 and `sub`
at 20. -/
def tTwo : OCRTable :=
  { text := ["Submit", "sub"], conf := [ConfVal.num 92, ConfVal.num 20],
    left := [10, 200], top := [10, 200], width := [50, 30], height := [20, 15] }

/-! Theorems.  Batteries marks `Rat` arithmetic `@[irreducible]`; the
declarations below restore default reducibility locally so that `decide`
can evaluate the embedding on the concrete inputs above. -/

attribute [local semireducible] Rat.mul Rat.add Rat.sub Rat.inv Rat.ofScientific

/-- A full-screen `capture` always leaves the slot holding exactly the
frame it returns (either the reused stored frame or the fresh one it just
stored). -/
theorem capture_full_stores_returned (env : SysEnv) (st : Option CachedFrame)
    (force : Bool) :
    (FrameCache.capture env st none force).state
      = some (FrameCache.capture env st none force).frame := by
  cases st with
  | none => rfl
  | some f =>
      simp only [FrameCache.capture]
      split <;> rfl

/-- Reduce the reuse branch of a full-screen unforced `capture` to the
age comparison. -/
theorem capture_reuse_of_age_le (env : SysEnv) (f : CachedFrame)
    (h : f.age_ms env.now ≤ 500) :
    FrameCache.capture env (some f) none false
      = { frame := f, state := some f, grabbed := false } := by
  unfold FrameCache.capture
  have hs : f.is_stale env.now 500 = false := by
    unfold CachedFrame.is_stale
    exact decide_eq_false (not_lt.mpr h)
  simp [hs]

/-- A full-screen unforced `capture` on a stale stored frame takes the
fresh-capture branch. -/
theorem capture_fresh_of_age_gt (env : SysEnv) (f : CachedFrame)
    (h : 500 < f.age_ms env.now) :
    FrameCache.capture env (some f) none false
      = FrameCache.captureFresh env (some f) none := by
  unfold FrameCache.capture
  have hs : f.is_stale env.now 500 = true := by
    unfold CachedFrame.is_stale
    exact decide_eq_true h
  simp [hs]

/-- `is_stale = false` is exactly `age ≤ max_age_ms`. -/
theorem is_stale_false_iff (f : CachedFrame) (now maxAge : Rat) :
    f.is_stale now maxAge = false ↔ f.age_ms now ≤ maxAge := by
  unfold CachedFrame.is_stale
  simp [not_lt]

/-- `is_stale = true` is exactly `max_age_ms < age`. -/
theorem is_stale_true_iff (f : CachedFrame) (now maxAge : Rat) :
    f.is_stale now maxAge = true ↔ maxAge < f.age_ms now := by
  unfold CachedFrame.is_stale
  simp

/-- A region-restricted `capture` always takes a fresh screenshot and
leaves the cache slot untouched. -/
theorem capture_region_eq (env : SysEnv) (st : Option CachedFrame)
    (r : Region) (force : Bool) :
    FrameCache.capture env st (some r) force
      = { frame := { image := env.regionImage r, timestamp := env.now,
                     width := r.width, height := r.height,
                     ocr_data := none, grayscale := none },
          state := st, grabbed := true } := by
  cases st with
  | none => rfl
  | some f => simp [FrameCache.capture, FrameCache.captureFresh]

/-- A forced full-screen `capture` never reuses the stored frame. -/
theorem capture_forced_full (env : SysEnv) (st : Option CachedFrame) :
    FrameCache.capture env st none true
      = FrameCache.captureFresh env st none := by
  cases st <;> simp [FrameCache.capture]

/-- C1, counterexample: a stored frame whose age is exactly the 500 ms
threshold is served by every usable-cached-frame request — `get_cached`,
`get_cached_ocr` (payload case) and the cache-reuse branch of `capture`
with `force=false` and no region — contradicting the claim that an
exactly-threshold-old frame is treated as stale. -/
theorem frame_at_exact_threshold_age_is_served :
    frA.age_ms (1/2) = 500 ∧
    FrameCache.get_cached (some frA) (1/2) 500 = some frA ∧
    FrameCache.get_cached_ocr (some frB) (1/2) = some tblB ∧
    FrameCache.capture envHalf (some frA) none false
      = { frame := frA, state := some frA, grabbed := false } := by
  decide

/-- C1, amended: a usable-cached-frame request (`get_cached`,
`get_cached_ocr`, and the reuse branch of `capture` with `force=false`,
region unset) serves the stored frame exactly while its age is at most the
threshold (default 500 ms); a frame whose age is exactly the threshold is
still served, and a frame strictly older than the threshold is never
served — a fresh capture is forced instead. -/
theorem staleness_threshold_semantics :
    (∀ st now maxAge f, FrameCache.get_cached st now maxAge = some f →
        f.age_ms now ≤ maxAge ∧ st = some f) ∧
    (∀ f now maxAge, f.age_ms now ≤ maxAge →
        FrameCache.get_cached (some f) now maxAge = some f) ∧
    (∀ f now maxAge, maxAge < f.age_ms now →
        FrameCache.get_cached (some f) now maxAge = none) ∧
    (∀ st now d, FrameCache.get_cached_ocr st now = some d →
        ∃ f, st = some f ∧ f.age_ms now ≤ 500 ∧ f.ocr_data = some d) ∧
    (∀ f now, 500 < f.age_ms now →
        FrameCache.get_cached_ocr (some f) now = none) ∧
    (∀ env f, f.age_ms env.now ≤ 500 →
        FrameCache.capture env (some f) none false
          = { frame := f, state := some f, grabbed := false }) ∧
    (∀ env f, 500 < f.age_ms env.now →
        (FrameCache.capture env (some f) none false).frame.timestamp = env.now ∧
        (FrameCache.capture env (some f) none false).grabbed = true) := by
  refine ⟨?_, ?_, ?_, ?_, ?_, ?_, ?_⟩
  · intro st now maxAge f h
    cases st with
    | none => simp [FrameCache.get_cached] at h
    | some g =>
        cases hst : g.is_stale now maxAge with
        | true => simp [FrameCache.get_cached, hst] at h
        | false =>
            simp [FrameCache.get_cached, hst] at h
            subst h
            exact ⟨(is_stale_false_iff g now maxAge).mp hst, rfl⟩
  · intro f now maxAge h
    have hs : f.is_stale now maxAge = false := (is_stale_false_iff f now maxAge).mpr h
    simp [FrameCache.get_cached, hs]
  · intro f now maxAge h
    have hs : f.is_stale now maxAge = true := (is_stale_true_iff f now maxAge).mpr h
    simp [FrameCache.get_cached, hs]
  · intro st now d h
    cases st with
    | none => simp [FrameCache.get_cached_ocr] at h
    | some g =>
        cases hst : g.is_stale now 500 with
        | true => simp [FrameCache.get_cached_ocr, hst] at h
        | false =>
            cases hd : g.ocr_data with
            | none => simp [FrameCache.get_cached_ocr, hst, hd] at h
            | some tbl =>
                simp [FrameCache.get_cached_ocr, hst, hd] at h
                exact ⟨g, rfl, (is_stale_false_iff g now 500).mp hst, by rw [hd, h]⟩
  · intro f now h
    have hs : f.is_stale now 500 = true := (is_stale_true_iff f now 500).mpr h
    simp [FrameCache.get_cached_ocr, hs]
  · intro env f h
    exact capture_reuse_of_age_le env f h
  · intro env f h
    rw [capture_fresh_of_age_gt env f h]
    exact ⟨rfl, rfl⟩

/-- Witness for the amended C1 theorem at concrete inputs: a 500 ms old
frame is served by `get_cached`, and a 1000 ms old frame is not. -/
theorem staleness_threshold_semantics_witness :
    FrameCache.get_cached (some frA) (1/2) 500 = some frA ∧
    FrameCache.get_cached (some frA) 1 500 = none :=
  ⟨staleness_threshold_semantics.2.1 frA (1/2) 500 (by decide),
   staleness_threshold_semantics.2.2.1 frA 1 500 (by decide)⟩

/-- C3: two full-screen `capture` calls with `force=false`, no intervening
invalidate or forced capture, the second while the frame returned by the
first is at most 500 ms old: the second call returns the very same frame
(hence the same `timestamp`), leaves the cache slot unchanged, and invokes
no screenshot. -/
theorem capture_idempotent_within_window (env1 env2 : SysEnv)
    (s0 : Option CachedFrame)
    (h : (FrameCache.capture env1 s0 none false).frame.age_ms env2.now ≤ 500) :
    FrameCache.capture env2 (FrameCache.capture env1 s0 none false).state none false
      = { frame := (FrameCache.capture env1 s0 none false).frame,
          state := (FrameCache.capture env1 s0 none false).state,
          grabbed := false } := by
  have hst := capture_full_stores_returned env1 s0 false
  rw [hst, capture_reuse_of_age_le env2 _ h, ← hst]

/-- Witness for C3: first capture at time 0 on an empty cache, second at
time 0.1 s; the second call reuses the stored frame. -/
theorem capture_idempotent_within_window_witness :
    FrameCache.capture envTenth (FrameCache.capture env0 none none false).state none false
      = { frame := (FrameCache.capture env0 none none false).frame,
          state := (FrameCache.capture env0 none none false).state,
          grabbed := false } :=
  capture_idempotent_within_window env0 envTenth none (by decide)

/-- C8: a `capture` with a region set performs a fresh screenshot and
returns it without storing it — the cache slot (with any attached OCR
payload) is identical before and after — and a subsequent region capture
grabs freshly again instead of reusing anything. -/
theorem region_capture_never_cached (env1 env2 : SysEnv)
    (st : Option CachedFrame) (r1 r2 : Region) (force1 force2 : Bool) :
    (FrameCache.capture env1 st (some r1) force1).state = st ∧
    (FrameCache.capture env1 st (some r1) force1).grabbed = true ∧
    (FrameCache.capture env1 st (some r1) force1).frame
      = { image := env1.regionImage r1, timestamp := env1.now,
          width := r1.width, height := r1.height,
          ocr_data := none, grayscale := none } ∧
    (FrameCache.capture env2 (FrameCache.capture env1 st (some r1) force1).state
        (some r2) force2).state = st ∧
    (FrameCache.capture env2 (FrameCache.capture env1 st (some r1) force1).state
        (some r2) force2).grabbed = true ∧
    (FrameCache.capture env2 (FrameCache.capture env1 st (some r1) force1).state
        (some r2) force2).frame.timestamp = env2.now := by
  rw [capture_region_eq env1 st r1 force1]
  rw [capture_region_eq env2 st r2 force2]
  exact ⟨rfl, rfl, rfl, rfl, rfl, rfl⟩

/-- C4, counterexample: with a stored frame only 100 ms old (well inside
the staleness window), `get_screen` with no region still invokes the
screenshot collaborator and replaces the cached frame — the cached frame is
not reused, contradicting `force = (region != nil)`. -/
theorem get_screen_ignores_fresh_cache :
    frA.age_ms envTenth.now ≤ 500 ∧
    (get_screen envTenth (some frA) none).grabbed = true ∧
    (get_screen envTenth (some frA) none).state ≠ some frA ∧
    (get_screen envTenth (some frA) none).image ≠ frA.image := by
  decide

/-- C4, amended: `get_screen` with region unset calls the frame cache's
capture with `force=true` — it always takes and stores a fresh full-screen
frame, even when a fresh cached frame exists — and with a region set it
bypasses the frame cache entirely (direct region screenshot, cache slot
unchanged). -/
theorem get_screen_capture_semantics (env : SysEnv) (st : Option CachedFrame)
    (r : Region) :
    (get_screen env st none).grabbed = true ∧
    (get_screen env st none).state
      = some { image := env.fullImage, timestamp := env.now,
               width := env.fullWidth, height := env.fullHeight,
               ocr_data := none, grayscale := none } ∧
    (get_screen env st none).image = env.fullImage ∧
    (get_screen env st (some r)).state = st ∧
    (get_screen env st (some r)).grabbed = true ∧
    (get_screen env st (some r)).image = env.regionImage r := by
  have hfull : FrameCache.capture env st none true
      = FrameCache.captureFresh env st none := capture_forced_full env st
  unfold get_screen capture_with_metadata capture_screenshot
  rw [hfull]
  exact ⟨rfl, rfl, rfl, rfl, rfl, rfl⟩

/-- C2, counterexample: in the full-screen OCR path, if the stored frame is
replaced between the capture and the attachment (here: time-0 capture of
frame `image 10`, concurrently replaced by `frG`, captured at time 1), the
OCR payload is not dropped — `cache_ocr_data` attaches it to the
replacement frame, which is not the frame the OCR ran on. -/
theorem ocr_payload_attached_to_mismatched_frame :
    (ocr_full_screen_interleaved env0 none (fun _ => some frG)).2
      = some { frG with ocr_data := some tblB } ∧
    frG.timestamp ≠ (FrameCache.capture env0 none none true).frame.timestamp ∧
    frG.image ≠ (FrameCache.capture env0 none none true).frame.image := by
  decide

/-- C2, amended: in the full-screen OCR path the payload is attached to
whichever frame is stored at attachment time, with no validation that it is
the frame the OCR ran on: the payload is silently dropped only when the
slot was cleared in between, and if the stored frame was replaced the
payload is attached to the replacement (mismatched) frame. -/
theorem ocr_attach_current_slot (env : SysEnv) (st : Option CachedFrame)
    (interfere : Option CachedFrame → Option CachedFrame) :
    (interfere (FrameCache.capture env st none true).state = none →
        (ocr_full_screen_interleaved env st interfere).2 = none) ∧
    (∀ g, interfere (FrameCache.capture env st none true).state = some g →
        (ocr_full_screen_interleaved env st interfere).2
          = some { g with ocr_data := some (env.ocr (FrameCache.capture env st none true).frame.image) }) := by
  constructor
  · intro h
    simp only [ocr_full_screen_interleaved]
    rw [h]
    rfl
  · intro g h
    simp only [ocr_full_screen_interleaved]
    rw [h]
    rfl

/-- Witness for the amended C2 theorem: with the slot cleared between
capture and attachment the payload is dropped. -/
theorem ocr_attach_current_slot_witness :
    (ocr_full_screen_interleaved env0 none (fun _ => none)).2 = none :=
  (ocr_attach_current_slot env0 none (fun _ => none)).1 rfl

/-- C9: every match returned by `find_template_on_screen` carries exactly
the confidence threshold that was passed in — the engine's per-match score
is discarded — so all matches of one call share one confidence value. -/
theorem template_match_confidence_is_threshold
    (locations : Option (List LocRect)) (confidence : Rat) :
    (∀ m ∈ find_template_on_screen locations confidence,
        m.confidence = confidence) ∧
    (∀ m1 ∈ find_template_on_screen locations confidence,
        ∀ m2 ∈ find_template_on_screen locations confidence,
          m1.confidence = m2.confidence) := by
  have hall : ∀ m ∈ find_template_on_screen locations confidence,
      m.confidence = confidence := by
    intro m hm
    cases locations with
    | none => simp [find_template_on_screen] at hm
    | some locs =>
        simp only [find_template_on_screen, List.mem_map] at hm
        obtain ⟨loc, -, rfl⟩ := hm
        rfl
  exact ⟨hall, fun m1 h1 m2 h2 => (hall m1 h1).trans (hall m2 h2).symm⟩

/-- Witness for C9 at a concrete engine answer with two rectangles. -/
theorem template_match_confidence_is_threshold_witness :
    ({ bbox := { x := 1, y := 2, width := 3, height := 4 },
       confidence := 4/5, text := none } : ElementMatch).confidence = 4/5 :=
  (template_match_confidence_is_threshold
      (some [{ left := 1, top := 2, width := 3, height := 4 },
             { left := 9, top := 9, width := 9, height := 9 }]) (4/5)).1
    { bbox := { x := 1, y := 2, width := 3, height := 4 },
      confidence := 4/5, text := none }
    (by decide)

/-- C10: `find_text_on_screen` captures its screenshot directly from the
screen-capture collaborator, never stores it in the frame cache, and never
touches the attached OCR payload: the cache slot — stored frame, timestamp
and `ocr_data` included — is identical before and after the call. -/
theorem find_text_leaves_cache_unchanged (env : SysEnv)
    (st : Option CachedFrame) (text : String) (region : Option Region)
    (min_confidence : Rat) :
    (find_text_pipeline env st text region min_confidence).2 = st :=
  rfl

/-- `confDescLe` is transitive. -/
theorem confDescLe_trans (a b c : ElementMatch) :
    confDescLe a b → confDescLe b c → confDescLe a c := by
  unfold confDescLe
  simp only [decide_eq_true_eq]
  intro hab hbc
  exact le_trans hbc hab

/-- `confDescLe` is total. -/
theorem confDescLe_total (a b : ElementMatch) :
    confDescLe a b || confDescLe b a := by
  unfold confDescLe
  simp only [Bool.or_eq_true, decide_eq_true_eq]
  exact le_total b.confidence a.confidence

/-- The output of the descending stable sort is sorted by descending
confidence. -/
theorem sortByConfDesc_sorted (ms : List ElementMatch) :
    (sortByConfDesc ms).Pairwise
      (fun a b => b.confidence ≤ a.confidence) := by
  have h := List.sorted_mergeSort confDescLe_trans confDescLe_total ms
  exact h.imp fun hab => of_decide_eq_true hab

/-- Stability of the descending sort: the matches carrying any one
confidence value appear in the output in exactly their input order. -/
theorem sortByConfDesc_stable (ms : List ElementMatch) (q : Rat) :
    (sortByConfDesc ms).filter (fun m => decide (m.confidence = q))
      = ms.filter (fun m => decide (m.confidence = q)) := by
  have hpair : (ms.filter (fun m => decide (m.confidence = q))).Pairwise
      (fun a b => confDescLe a b = true) := by
    apply List.pairwise_of_forall_mem_list
    intro a ha b hb
    have ha2 := (List.mem_filter.mp ha).2
    have hb2 := (List.mem_filter.mp hb).2
    have haq : a.confidence = q := of_decide_eq_true ha2
    have hbq : b.confidence = q := of_decide_eq_true hb2
    unfold confDescLe
    exact decide_eq_true (le_of_eq (hbq.trans haq.symm))
  have hsub : List.Sublist (ms.filter (fun m => decide (m.confidence = q)))
      (List.mergeSort ms confDescLe) :=
    List.sublist_mergeSort confDescLe_trans confDescLe_total hpair
      (List.filter_sublist ms)
  have hsub2 : List.Sublist
      ((ms.filter (fun m => decide (m.confidence = q))).filter
        (fun m => decide (m.confidence = q)))
      ((List.mergeSort ms confDescLe).filter (fun m => decide (m.confidence = q))) :=
    hsub.filter (fun m => decide (m.confidence = q))
  rw [List.filter_filter] at hsub2
  have hidem : ms.filter
        (fun a => decide (a.confidence = q) && decide (a.confidence = q))
      = ms.filter (fun m => decide (m.confidence = q)) := by
    apply List.filter_congr
    intro a _
    exact Bool.and_self _
  rw [hidem] at hsub2
  have hperm : List.Perm
      ((List.mergeSort ms confDescLe).filter (fun m => decide (m.confidence = q)))
      (ms.filter (fun m => decide (m.confidence = q))) :=
    (List.mergeSort_perm ms confDescLe).filter _
  exact (hsub2.eq_of_length (hperm.length_eq.symm)).symm


theorem cachedRows_conf_ge (t : OCRTable) (lower : List Char) (mc : Rat) :
    ∀ rows, ∀ m ∈ cachedRows t lower mc rows, mc ≤ m.confidence := by
  intro rows
  induction rows with
  | nil => intro m hm; rw [cachedRows] at hm; exact absurd hm (List.not_mem_nil m)
  | cons i rest ih =>
      intro m hm
      simp only [cachedRows] at hm
      split at hm
      · exact ih m hm
      · split at hm
        · split at hm
          · rcases List.mem_cons.mp hm with rfl | hm2
            · assumption
            · exact ih m hm2
          · exact ih m hm
        · exact ih m hm

theorem strictRows_conf_ge (t : OCRTable) (lower : List Char) (offx offy : Int) (mc : Rat) :
    ∀ rows ms, strictRows t lower offx offy mc rows = some ms →
      ∀ m ∈ ms, mc ≤ m.confidence := by
  intro rows
  induction rows with
  | nil =>
      intro ms h m hm
      rw [strictRows] at h
      cases h
      exact absurd hm (List.not_mem_nil m)
  | cons i rest ih =>
      intro ms h m hm
      by_cases hw : t.text.getD i "" = ""
      · rw [strictRows, if_pos hw] at h
        exact ih ms h m hm
      · by_cases hsub : substrMatch lower (t.text.getD i "") = true
        · cases hc : confStrict (t.conf.getD i ConfVal.noneVal) with
          | none =>
              simp only [strictRows, if_neg hw, if_pos hsub, hc] at h
              exact Option.noConfusion h
          | some conf =>
              by_cases hmc : mc ≤ conf
              · cases hr : strictRows t lower offx offy mc rest with
                | none =>
                    simp only [strictRows, if_neg hw, if_pos hsub, hc, hr, if_pos hmc] at h
                    exact Option.noConfusion h
                | some ms2 =>
                    simp only [strictRows, if_neg hw, if_pos hsub, hc, hr, if_pos hmc] at h
                    cases h
                    rcases List.mem_cons.mp hm with rfl | hm2
                    · exact hmc
                    · exact ih ms2 hr m hm2
              · simp only [strictRows, if_neg hw, if_pos hsub, hc, if_neg hmc] at h
                exact ih ms h m hm
        · simp only [strictRows, if_neg hw, if_neg hsub] at h
          exact ih ms h m hm

theorem strictRows_isSome (t : OCRTable) (lower : List Char) (offx offy : Int)
    (mc : Rat) (hlen : t.conf.length = t.text.length)
    (hnone : ∀ v ∈ t.conf, v ≠ ConfVal.noneVal) :
    ∀ rows, (∀ i ∈ rows, i < t.text.length) →
      (strictRows t lower offx offy mc rows).isSome = true := by
  intro rows
  induction rows with
  | nil => intro _; rw [strictRows]; rfl
  | cons i rest ih =>
      intro hlt
      have hrest := ih (fun j hj => hlt j (List.mem_cons_of_mem i hj))
      have hi : i < t.conf.length := by
        rw [hlen]; exact hlt i (List.mem_cons_self i rest)
      have hgd : t.conf.getD i ConfVal.noneVal = t.conf[i] := by
        rw [List.getD_eq_getElem?_getD, List.getElem?_eq_getElem hi]
        rfl
      have hcv : t.conf.getD i ConfVal.noneVal ≠ ConfVal.noneVal := by
        rw [hgd]
        exact hnone _ (List.getElem_mem hi)
      have hq : ∃ q, confStrict (t.conf.getD i ConfVal.noneVal) = some q := by
        cases hv : t.conf.getD i ConfVal.noneVal with
        | num q => exact ⟨q / 100, rfl⟩
        | badStr => exact ⟨0, rfl⟩
        | noneVal => exact absurd hv hcv
      obtain ⟨q, hq⟩ := hq
      obtain ⟨ms2, hr⟩ := Option.isSome_iff_exists.mp hrest
      rw [strictRows]
      by_cases hw : t.text.getD i "" = ""
      · rw [if_pos hw]; exact hrest
      · rw [if_neg hw]
        by_cases hsub : substrMatch lower (t.text.getD i "") = true
        · simp only [if_pos hsub, hq]
          by_cases hmc : mc ≤ q
          · simp only [if_pos hmc, hr]
            rfl
          · rw [if_neg hmc]; exact hrest
        · rw [if_neg hsub]; exact hrest

theorem ocrRows_kept (t : OCRTable) (mc : Rat) :
    ∀ rows, ∀ m ∈ ocrRows t mc rows,
      m.text ≠ "" ∧ m.text.data.all Char.isWhitespace = false ∧
      mc ≤ m.confidence := by
  intro rows
  induction rows with
  | nil => intro m hm; rw [ocrRows] at hm; exact absurd hm (List.not_mem_nil m)
  | cons i rest ih =>
      intro m hm
      simp only [ocrRows] at hm
      split at hm
      · exact ih m hm
      · split at hm
        · exact ih m hm
        · rcases List.mem_cons.mp hm with rfl | hm2
          · rename_i hblank hconf
            simp only [Bool.or_eq_true, not_or, decide_eq_true_eq,
              Bool.not_eq_true] at hblank
            exact ⟨hblank.1, hblank.2, not_lt.mp hconf⟩
          · exact ih m hm2
theorem ocrRows_mem_of_kept (t : OCRTable) (mc : Rat) :
    ∀ rows, ∀ i ∈ rows,
      t.text.getD i "" ≠ "" →
      (t.text.getD i "").data.all Char.isWhitespace = false →
      ¬(confLoose (t.conf.getD i ConfVal.noneVal) < mc) →
      rowDict t i ∈ ocrRows t mc rows := by
  intro rows
  induction rows with
  | nil => intro i hi; exact absurd hi (List.not_mem_nil i)
  | cons j rest ih =>
      intro i hi hw hall hconf
      simp only [ocrRows]
      rcases List.mem_cons.mp hi with rfl | hi2
      · have hcond : (decide (t.text.getD i "" = "")
            || (t.text.getD i "").data.all Char.isWhitespace) = false := by
          rw [Bool.or_eq_false_iff]
          exact ⟨decide_eq_false hw, hall⟩
        have hcondne : ((decide (t.text.getD i "" = "")
            || (t.text.getD i "").data.all Char.isWhitespace) = true) → False := by
          rw [hcond]; exact Bool.false_ne_true
        rw [if_neg hcondne, if_neg hconf]
        exact List.mem_cons_self _ _
      · have hrec := ih i hi2 hw hall hconf
        split
        · exact hrec
        · split
          · exact hrec
          · exact List.mem_cons_of_mem _ hrec

/-- C5, counterexample: a negative numeric engine score is not treated as
confidence 0.0 — `-1` becomes `-0.01`, which the conversion path's default
0.0 floor silently drops (while a genuinely non-numeric string score, which
is treated as 0.0, is kept at that floor); and a `None` engine score raises
out of `find_text_on_screen` (only `ValueError` is caught there), so one
malformed token fails that whole scan. -/
theorem malformed_confidence_not_clamped :
    ocr_data_to_matches tNeg 0 = [] ∧
    ocr_data_to_matches tBad 0
      = [{ text := "x", confidence := 0,
           bbox := { x := 0, y := 0, width := 0, height := 0,
                     center_x := 0, center_y := 0 } }] ∧
    find_text_on_screen tAb "ab" none (35/100) = none := by
  decide

/-- C5, amended: a numeric engine score is divided by 100 without clamping
(a negative score yields a negative confidence, excluded by any
non-negative floor); a non-numeric string score is treated as confidence
0.0 in all three paths; a `None` score is treated as 0.0 in
`find_text_in_ocr_cache` and `_ocr_data_to_matches` but raises in
`find_text_on_screen`, failing that scan.  Consequently every returned
match carries confidence at or above the requested floor — no returned
match is negative whenever the floor is non-negative — and a scan whose
tokens have no `None` score never fails. -/
theorem confidence_floor_and_malformed_scores :
    (∀ st now text mc, ∀ m ∈ find_text_in_ocr_cache st now text mc,
        mc ≤ m.confidence) ∧
    (∀ t mc, ∀ m ∈ ocr_data_to_matches t mc, mc ≤ m.confidence) ∧
    (∀ t text region mc ms, find_text_on_screen t text region mc = some ms →
        ∀ m ∈ ms, mc ≤ m.confidence) ∧
    (∀ t text region mc, t.conf.length = t.text.length →
        (∀ v ∈ t.conf, v ≠ ConfVal.noneVal) →
        (find_text_on_screen t text region mc).isSome = true) := by
  refine ⟨?_, ?_, ?_, ?_⟩
  · intro st now text mc m hm
    unfold find_text_in_ocr_cache at hm
    cases hoc : FrameCache.get_cached_ocr st now with
    | none => rw [hoc] at hm; exact absurd hm (List.not_mem_nil m)
    | some cached =>
        rw [hoc] at hm
        have hm2 := List.mem_mergeSort.mp hm
        exact cachedRows_conf_ge cached (strLower text) mc _ m hm2
  · intro t mc m hm
    exact (ocrRows_kept t mc _ m hm).2.2
  · intro t text region mc ms h m hm
    unfold find_text_on_screen at h
    cases hs : strictRows t (strLower text) (regionOffsetX region)
        (regionOffsetY region) mc (List.range t.text.length) with
    | none => rw [hs] at h; exact Option.noConfusion h
    | some ms0 =>
        rw [hs] at h
        cases h
        have hm2 := List.mem_mergeSort.mp hm
        exact strictRows_conf_ge t (strLower text) (regionOffsetX region)
          (regionOffsetY region) mc _ ms0 hs m hm2
  · intro t text region mc hlen hnone
    unfold find_text_on_screen
    cases hs : strictRows t (strLower text) (regionOffsetX region)
        (regionOffsetY region) mc (List.range t.text.length) with
    | none =>
        have := strictRows_isSome t (strLower text) (regionOffsetX region)
          (regionOffsetY region) mc hlen hnone (List.range t.text.length)
          (fun i hi => List.mem_range.mp hi)
        rw [hs] at this
        exact Bool.noConfusion this
    | some ms0 => rfl

/-- Witness for the amended C5 theorem: a two-token table with numeric
confidences is scanned without failure. -/
theorem confidence_floor_and_malformed_scores_witness :
    (find_text_on_screen tTwo "sub" none (3/10)).isSome = true :=
  confidence_floor_and_malformed_scores.2.2.2 tTwo "sub" none (3/10) rfl
    (by decide)

/-- C6: the result lists of `find_text_on_screen` and
`find_text_in_ocr_cache` are sorted by confidence in descending order, and
matches with equal confidence retain their relative order from the engine's
emission (the collected row list), i.e. the sort is stable with no
secondary key. -/
theorem text_results_sorted_and_stable :
    (∀ st now text mc,
        (find_text_in_ocr_cache st now text mc).Pairwise
          (fun a b => b.confidence ≤ a.confidence)) ∧
    (∀ st now text mc cached, FrameCache.get_cached_ocr st now = some cached →
        ∀ q : Rat,
          (find_text_in_ocr_cache st now text mc).filter
              (fun m => decide (m.confidence = q))
            = (cachedRows cached (strLower text) mc
                (List.range cached.text.length)).filter
                (fun m => decide (m.confidence = q))) ∧
    (∀ t text region mc ms, find_text_on_screen t text region mc = some ms →
        ms.Pairwise (fun a b => b.confidence ≤ a.confidence)) ∧
    (∀ t text region mc ms, find_text_on_screen t text region mc = some ms →
        ∀ q : Rat, ∃ ms0,
          strictRows t (strLower text) (regionOffsetX region)
              (regionOffsetY region) mc (List.range t.text.length) = some ms0 ∧
          ms.filter (fun m => decide (m.confidence = q))
            = ms0.filter (fun m => decide (m.confidence = q))) := by
  refine ⟨?_, ?_, ?_, ?_⟩
  · intro st now text mc
    unfold find_text_in_ocr_cache
    cases hoc : FrameCache.get_cached_ocr st now with
    | none => exact List.Pairwise.nil
    | some cached => exact sortByConfDesc_sorted _
  · intro st now text mc cached hoc q
    unfold find_text_in_ocr_cache
    rw [hoc]
    exact sortByConfDesc_stable _ q
  · intro t text region mc ms h
    unfold find_text_on_screen at h
    cases hs : strictRows t (strLower text) (regionOffsetX region)
        (regionOffsetY region) mc (List.range t.text.length) with
    | none => rw [hs] at h; exact Option.noConfusion h
    | some ms0 =>
        rw [hs] at h
        cases h
        exact sortByConfDesc_sorted ms0
  · intro t text region mc ms h q
    unfold find_text_on_screen at h
    cases hs : strictRows t (strLower text) (regionOffsetX region)
        (regionOffsetY region) mc (List.range t.text.length) with
    | none => rw [hs] at h; exact Option.noConfusion h
    | some ms0 =>
        rw [hs] at h
        cases h
        exact ⟨ms0, rfl, sortByConfDesc_stable ms0 q⟩

/-- Witness for C6 at a concrete cached table and confidence value. -/
theorem text_results_sorted_and_stable_witness :
    (find_text_in_ocr_cache (some frB) 0 "ok" (35/100)).filter
        (fun m => decide (m.confidence = 9/10))
      = (cachedRows tblB (strLower "ok") (35/100)
          (List.range tblB.text.length)).filter
          (fun m => decide (m.confidence = 9/10)) :=
  text_results_sorted_and_stable.2.1 (some frB) 0 "ok" (35/100) tblB
    (by decide) (9/10)

/-- C7, counterexample: the claim that blank-dropping is the sole filter
and every non-blank token appears regardless of confidence fails — a table
with the single non-blank token `"x"` at engine confidence `-1` converts to
an empty list, because the conversion applies its default 0.0 confidence
floor. -/
theorem nonblank_token_dropped_by_zero_floor :
    tNeg.text.getD 0 "" = "x" ∧
    ("x" ≠ "" ∧ "x".data.all Char.isWhitespace = false) ∧
    ocr_data_to_matches tNeg 0 = [] := by
  decide

/-- C7, amended: `_ocr_data_to_matches`, as used by `ocr_full_screen`,
drops every token whose text is empty or whitespace-only, and additionally
applies its default confidence floor of 0.0, dropping tokens whose parsed
confidence is negative; every token with non-blank text and non-negative
parsed confidence appears in the output. -/
theorem scan_all_conversion_filters :
    (∀ t mc, ∀ m ∈ ocr_data_to_matches t mc,
        m.text ≠ "" ∧ m.text.data.all Char.isWhitespace = false) ∧
    (∀ t, ∀ m ∈ ocr_data_to_matches t 0, 0 ≤ m.confidence) ∧
    (∀ t i, i < t.text.length →
        t.text.getD i "" ≠ "" →
        (t.text.getD i "").data.all Char.isWhitespace = false →
        0 ≤ confLoose (t.conf.getD i ConfVal.noneVal) →
        rowDict t i ∈ ocr_data_to_matches t 0) := by
  refine ⟨?_, ?_, ?_⟩
  · intro t mc m hm
    exact ⟨(ocrRows_kept t mc _ m hm).1, (ocrRows_kept t mc _ m hm).2.1⟩
  · intro t m hm
    exact (ocrRows_kept t 0 _ m hm).2.2
  · intro t i hi hw hall hconf
    exact ocrRows_mem_of_kept t 0 (List.range t.text.length) i
      (List.mem_range.mpr hi) hw hall (not_lt.mpr hconf)

/-- Witness for the amended C7 theorem: the non-blank, non-negative token
of the scenario-A table appears in the conversion output. -/
theorem scan_all_conversion_filters_witness :
    rowDict tTwo 0 ∈ ocr_data_to_matches tTwo 0 :=
  scan_all_conversion_filters.2.2 tTwo 0 (by decide) (by decide) (by decide)
    (by decide)

end UbuntuCommander
